import Mathlib

/-!
# GopherDot (go4dot) — verification of the installation orchestration engine

Shallow embedding of the go4dot dotfiles manager core in Lean 4.

The embedding follows the Go sources:
* `internal/deps` external-asset manager (`CloneExternal`, `checkCondition`,
  `matchesValue`, `expandPath`, `checkDestination`, git helpers),
* `internal/stow` batch symlink operations (`StowConfigs`, `UnstowConfigs`,
  `RestowConfigs`),
* `internal/platform` package-name mapping (`MapPackageName`),
* `internal/machine` prompt collection (`collectSinglePrompt`),
* `internal/setup` orchestrators (`Install`, `Update`).

Interactions with the operating system (filesystem probing, spawning
`git` / `stow` / package-manager processes, the home directory) are modelled
by explicit environment records of oracles; the control flow around those
calls is translated statement by statement from the Go code.  Where a
mutating external call changes what later probes observe (a successful
`git clone` makes the destination path exist), the environment is threaded
through the computation.
-/

set_option autoImplicit false

namespace GopherDot

/-! ## Data model (internal/config types) -/

/-- `config.ConfigItem`: one symlinkable configuration group. -/
structure ConfigItem where
  name : String
  path : String
  deriving Repr, DecidableEq

/-- `config.ExternalDep`: a third-party asset with a platform gate.
The Go `Condition` field is a `map[string]string`; it is modelled as an
association list of key/value pairs (Go map keys are unique, and the
evaluation below is order-independent, so this is faithful). -/
structure ExternalDep where
  id : String
  name : String
  url : String
  destination : String
  method : String
  condition : List (String × String)
  deriving Repr, DecidableEq

/-- `platform.Platform`: the detected platform, read-only after detection. -/
structure Platform where
  os : String
  distro : String
  packageManager : String
  architecture : String
  isWSL : Bool
  deriving Repr, DecidableEq

/-! ## Go `strings` library helpers

The Go code uses `strings.Split`, `strings.TrimSpace` and `strings.ToLower`.
They are embedded here over `List Char` (so that all definitions reduce in
the kernel).  `TrimSpace`/`ToLower` are modelled on ASCII, which covers every
value the program compares (condition values, `y`/`yes`/`true`/`1`, paths). -/

/-- ASCII whitespace as recognised by Go's `unicode.IsSpace`. -/
def goIsSpace (c : Char) : Bool :=
  c == ' ' || c == '\t' || c == '\n' || c == '\r' || c == '\x0b' || c == '\x0c'

/-- `strings.TrimSpace` (ASCII): drop leading and trailing whitespace. -/
def goTrim (s : String) : String :=
  String.mk (((s.data.dropWhile goIsSpace).reverse.dropWhile goIsSpace).reverse)

/-- `strings.ToLower` (ASCII): lower-case A–Z. -/
def goToLower (s : String) : String :=
  String.mk (s.data.map (fun c =>
    if 65 ≤ c.toNat && c.toNat ≤ 90 then Char.ofNat (c.toNat + 32) else c))

/-- Split a character list on a separator character; `splitChars sep []`
is `[[]]`, matching Go's `strings.Split("", sep) = [""]`. -/
def splitChars (sep : Char) : List Char → List (List Char)
  | [] => [[]]
  | c :: cs =>
    match splitChars sep cs with
    | [] => [[]]
    | g :: gs => if c == sep then [] :: g :: gs else (c :: g) :: gs

/-- `strings.Split` with a one-character separator. -/
def goSplit (s : String) (sep : Char) : List String :=
  (splitChars sep s.data).map String.mk

/-! ## internal/deps: condition evaluation (deps/external.go `checkCondition`) -/

/-- `deps.matchesValue`: comma-separated alternatives, each compared to the
actual value after trimming whitespace. -/
def matchesValue (actual expected : String) : Bool :=
  (goSplit expected ',').any (fun v => goTrim v == actual)

/-- One iteration of the `for key, value := range condition` switch in
`deps.checkCondition`.  Unknown keys fall through the `switch` and never
cause a mismatch. -/
def checkConditionEntry (p : Platform) (kv : String × String) : Bool :=
  if kv.1 == "platform" || kv.1 == "os" then matchesValue p.os kv.2
  else if kv.1 == "distro" then matchesValue p.distro kv.2
  else if kv.1 == "package_manager" then matchesValue p.packageManager kv.2
  else if kv.1 == "wsl" then
    !((kv.2 == "true" && !p.isWSL) || (kv.2 == "false" && p.isWSL))
  else if kv.1 == "arch" || kv.1 == "architecture" then
    matchesValue p.architecture kv.2
  else true

/-- `deps.checkCondition`: an empty condition always passes; otherwise every
key present must match (the Go loop returns `false` on the first mismatch
and `true` after the loop, i.e. a conjunction over the entries). -/
def checkCondition (condition : List (String × String)) (p : Platform) : Bool :=
  condition.all (checkConditionEntry p)

/-! ## internal/platform: package-name mapping (packages.go `MapPackageName`) -/

/-- The static lookup table literal inside `platform.MapPackageName`. -/
def packageMappings : List (String × List (String × String)) :=
  [ ("neovim", [("dnf", "neovim"), ("apt", "neovim"), ("brew", "neovim"), ("pacman", "neovim")]),
    ("fd", [("dnf", "fd-find"), ("apt", "fd-find"), ("brew", "fd"), ("pacman", "fd")]),
    ("ripgrep", [("dnf", "ripgrep"), ("apt", "ripgrep"), ("brew", "ripgrep"), ("pacman", "ripgrep")]) ]

/-- `platform.MapPackageName`: map a generic package name to the
manager-specific name; if no mapping exists, return the generic name. -/
def MapPackageName (genericName manager : String) : String :=
  match packageMappings.lookup genericName with
  | some pkgMap =>
    match pkgMap.lookup manager with
    | some specificName => specificName
    | none => genericName
  | none => genericName

/-! ## internal/machine: prompt collection (machine/prompts.go)

Interactive input is modelled as the list of lines the `bufio.Reader` will
deliver (each entry one `\n`-terminated read); an exhausted list is `io.EOF`.
Errors are `Except.error`, mirroring `(string, error)` returns. -/

/-- `config.PromptField`: one entry of a machine config's ordered prompts. -/
structure PromptField where
  id : String
  label : String
  type : String
  default : String
  required : Bool
  deriving Repr, DecidableEq

/-- The tail of each loop iteration of `machine.collectSinglePrompt` after the
type switch produced `input`: trim, fall back to the default on empty input,
re-prompt (`retry`) when a required field is still empty, else return. -/
def finishLine (p : PromptField) (input : String) (retry : Except String String) :
    Except String String :=
  let i := goTrim input
  let i := if i == "" && p.default != "" then p.default else i
  if p.required && i == "" then retry else .ok i

/-- The `for` loop of `machine.collectSinglePrompt` (the interactive path):
one iteration per line read.  A `confirm` field normalises
`y/yes/true/1` to `"true"` and `n/no/false/0/""` to `"false"`, and
re-prompts ("Please enter yes or no") on anything else; every other type
passes the raw line to the common tail.  On `io.EOF` the default is used if
present, a required field errors, and anything else yields `""`. -/
def collectLoop (p : PromptField) : List String → Except String String
  | [] =>
    if p.default != "" then .ok p.default
    else if p.required then .error ("required field '" ++ p.id ++ "' not provided")
    else .ok ""
  | line :: rest =>
    if p.type == "confirm" then
      let t := goToLower (goTrim line)
      if t == "y" || t == "yes" || t == "true" || t == "1" then
        finishLine p "true" (collectLoop p rest)
      else if t == "n" || t == "no" || t == "false" || t == "0" || t == "" then
        finishLine p "false" (collectLoop p rest)
      else
        collectLoop p rest
    else
      finishLine p line (collectLoop p rest)

/-- `machine.collectSinglePrompt`: with `skipPrompts` use the default (error
for a required field with no default) without reading input; otherwise run
the interactive loop over the input lines. -/
def collectSinglePrompt (p : PromptField) (lines : List String) (skipPrompts : Bool) :
    Except String String :=
  if skipPrompts then
    if p.required && p.default == "" then
      .error ("required field '" ++ p.id ++ "' has no default value")
    else .ok p.default
  else collectLoop p lines

/-! ## internal/stow: batch symlink operations (stow/stow.go)

`StowWithCount` / `UnstowWithCount` / `RestowWithCount` each run the external
`stow` binary once; the environment records, per package name, whether that
invocation succeeds.  Each batch operation additionally returns the list of
package names the external tool was invoked for, in order. -/

/-- `stow.StowError`: a per-group stow failure. -/
structure StowError where
  configName : String
  errMsg : String
  deriving Repr, DecidableEq

/-- `stow.StowResult`: per-run aggregate of a batch operation. -/
structure StowResult where
  success : List String
  failed : List StowError
  skipped : List String
  deriving Repr, DecidableEq

def emptyStowResult : StowResult := ⟨[], [], []⟩

/-- Environment for the stow subsystem: `dirExists` models `os.Stat` on the
joined source path, the three `…Ok` oracles model a zero exit status of the
corresponding `stow` invocation for a package. -/
structure StowEnv where
  dirExists : String → Bool
  stowOk : String → Bool
  unstowOk : String → Bool
  restowOk : String → Bool

/-- `filepath.Join(dir, file)` (up to path cleaning, which no claim relies
on). -/
def joinPath (dir file : String) : String := dir ++ "/" ++ file

/-- One iteration of the `StowConfigs` loop: skip when the config's source
directory is missing, otherwise invoke the tool and record success or
failure. -/
def stowConfigsStep (env : StowEnv) (dotfilesPath : String)
    (acc : StowResult × List String) (cfg : ConfigItem) : StowResult × List String :=
  let (r, calls) := acc
  if !env.dirExists (joinPath dotfilesPath cfg.path) then
    ({ r with skipped := r.skipped ++ [cfg.name] }, calls)
  else if env.stowOk cfg.path then
    ({ r with success := r.success ++ [cfg.name] }, calls ++ [cfg.path])
  else
    ({ r with failed := r.failed ++ [⟨cfg.name, "stow failed"⟩] }, calls ++ [cfg.path])

/-- `stow.StowConfigs`: stow multiple configs, skipping missing source
directories, collecting failures without aborting. -/
def StowConfigs (env : StowEnv) (dotfilesPath : String) (configs : List ConfigItem) :
    StowResult × List String :=
  configs.foldl (stowConfigsStep env dotfilesPath) (emptyStowResult, [])

/-- One iteration of the `UnstowConfigs` loop: no existence check is
performed; the tool is invoked for every item. -/
def unstowConfigsStep (env : StowEnv) (acc : StowResult × List String) (cfg : ConfigItem) :
    StowResult × List String :=
  let (r, calls) := acc
  if env.unstowOk cfg.path then
    ({ r with success := r.success ++ [cfg.name] }, calls ++ [cfg.path])
  else
    ({ r with failed := r.failed ++ [⟨cfg.name, "unstow failed"⟩] }, calls ++ [cfg.path])

/-- `stow.UnstowConfigs`: unstow multiple configs. -/
def UnstowConfigs (env : StowEnv) (_dotfilesPath : String) (configs : List ConfigItem) :
    StowResult × List String :=
  configs.foldl (unstowConfigsStep env) (emptyStowResult, [])

/-- One iteration of the `RestowConfigs` loop: like `StowConfigs`, the
source directory is checked first. -/
def restowConfigsStep (env : StowEnv) (dotfilesPath : String)
    (acc : StowResult × List String) (cfg : ConfigItem) : StowResult × List String :=
  let (r, calls) := acc
  if !env.dirExists (joinPath dotfilesPath cfg.path) then
    ({ r with skipped := r.skipped ++ [cfg.name] }, calls)
  else if env.restowOk cfg.path then
    ({ r with success := r.success ++ [cfg.name] }, calls ++ [cfg.path])
  else
    ({ r with failed := r.failed ++ [⟨cfg.name, "restow failed"⟩] }, calls ++ [cfg.path])

/-- `stow.RestowConfigs`: restow multiple configs, skipping missing source
directories. -/
def RestowConfigs (env : StowEnv) (dotfilesPath : String) (configs : List ConfigItem) :
    StowResult × List String :=
  configs.foldl (restowConfigsStep env dotfilesPath) (emptyStowResult, [])

/-! ## internal/deps: external asset manager (deps/external.go) -/

/-- `deps.ExternalSkipped`. -/
structure ExternalSkipped where
  dep : ExternalDep
  reason : String
  deriving Repr, DecidableEq

/-- `deps.ExternalError`. -/
structure ExternalErrorE where
  dep : ExternalDep
  errMsg : String
  deriving Repr, DecidableEq

/-- `deps.ExternalResult`. -/
structure ExternalResult where
  cloned : List ExternalDep
  updated : List ExternalDep
  failed : List ExternalErrorE
  skipped : List ExternalSkipped
  deriving Repr, DecidableEq

def emptyExternalResult : ExternalResult := ⟨[], [], [], []⟩

/-- `deps.ExternalOptions` (the progress callback carries no meaning for the
results and is dropped). -/
structure ExternalOptions where
  dryRun : Bool
  update : Bool
  deriving Repr, DecidableEq

/-- The filesystem as observed by `deps.checkDestination`: whether a path
exists, and whether it is a directory containing a `.git` entry. -/
structure FS where
  pathExists : String → Bool
  pathIsGit : String → Bool

/-- `deps.checkDestination`: returns `(exists, isGit)`; `isGit` is only
reported for an existing path. -/
def checkDestination (fs : FS) (path : String) : Bool × Bool :=
  (fs.pathExists path, fs.pathExists path && fs.pathIsGit path)

/-- Effect of a successful clone on the filesystem: the destination now
exists; it is a git working copy for `method=clone` and not one after the
`.git`-stripping copy. -/
def FS.withPath (fs : FS) (p : String) (git : Bool) : FS :=
  { pathExists := fun q => q == p || fs.pathExists q,
    pathIsGit := fun q => if q == p then git else fs.pathIsGit q }

/-- Environment for the external asset manager: the home directory
(`os.UserHomeDir`), `filepath.Clean` / `filepath.Join` (opaque path
functions — no claim depends on their internals), whether `git` is on
`PATH`, and success oracles for the three git operations. -/
structure GitEnv where
  home : Option String
  clean : String → String
  join : String → String → String
  gitOnPath : Bool
  cloneOk : String → String → Bool
  copyOk : String → String → Bool
  pullOk : String → Bool

/-- `strings.HasPrefix` (prefix test over the character list). -/
def goStartsWith (s pre : String) : Bool := pre.data.isPrefixOf s.data

/-- Go's `path[2:]` byte slicing, on characters (the prefix `~/` is ASCII). -/
def goDrop (s : String) (n : Nat) : String := String.mk (s.data.drop n)

/-- `deps.expandPath`: expand a leading `~/` against the home directory
(failing when `os.UserHomeDir` fails), then clean the path. -/
def expandPath (env : GitEnv) (path : String) : Option String :=
  if goStartsWith path "~/" then
    match env.home with
    | none => none
    | some home => some (env.clean (env.join home (goDrop path 2)))
  else some (env.clean path)

/-- One iteration of the `CloneExternal` loop over `cfg.External`, threading
the result aggregate and the filesystem (a successful clone creates the
destination path). -/
def processExternal (env : GitEnv) (p : Platform) (opts : ExternalOptions)
    (acc : ExternalResult × FS) (ext : ExternalDep) : ExternalResult × FS :=
  let (r, fs) := acc
  if !checkCondition ext.condition p then
    ({ r with skipped := r.skipped ++ [⟨ext, "condition not met"⟩] }, fs)
  else
    match expandPath env ext.destination with
    | none => ({ r with failed := r.failed ++ [⟨ext, "failed to expand path"⟩] }, fs)
    | some destPath =>
      let probe := checkDestination fs destPath
      if probe.1 then
        if opts.update && probe.2 then
          if !opts.dryRun && !env.pullOk destPath then
            ({ r with failed := r.failed ++ [⟨ext, "failed to update"⟩] }, fs)
          else
            ({ r with updated := r.updated ++ [ext] }, fs)
        else
          ({ r with skipped := r.skipped ++ [⟨ext, "already exists"⟩] }, fs)
      else
        if opts.dryRun then
          ({ r with cloned := r.cloned ++ [ext] }, fs)
        else
          let method := if ext.method == "" then "clone" else ext.method
          if method == "clone" then
            if env.cloneOk ext.url destPath then
              ({ r with cloned := r.cloned ++ [ext] }, fs.withPath destPath true)
            else
              ({ r with failed := r.failed ++ [⟨ext, "git clone failed"⟩] }, fs)
          else if method == "copy" then
            if env.copyOk ext.url destPath then
              ({ r with cloned := r.cloned ++ [ext] }, fs.withPath destPath false)
            else
              ({ r with failed := r.failed ++ [⟨ext, "git clone failed"⟩] }, fs)
          else
            ({ r with failed := r.failed ++ [⟨ext, "unknown method: " ++ method⟩] }, fs)

/-- `deps.CloneExternal`: an empty external list returns an empty result
before anything else; with a non-empty list, a missing `git` executable is a
fatal error (`none`); otherwise every asset is processed in declaration
order. -/
def CloneExternal (env : GitEnv) (fs : FS) (external : List ExternalDep)
    (p : Platform) (opts : ExternalOptions) : Option ExternalResult :=
  if external.isEmpty then some emptyExternalResult
  else if !env.gitOnPath then none
  else some (external.foldl (processExternal env p opts) (emptyExternalResult, fs)).1

/-! ## internal/setup: the install orchestrator (setup/install.go) -/

/-- `setup.InstallOptions`. -/
structure InstallOptions where
  auto : Bool
  minimal : Bool
  skipDeps : Bool
  skipExternal : Bool
  skipMachine : Bool
  skipStow : Bool
  overwrite : Bool
  deriving Repr, DecidableEq

/-- `setup.InstallResult`: the per-invocation aggregate the orchestrator
fills in (dependency failures are carried as item-name/error pairs,
machine-config render results by id). -/
structure InstallResult where
  platform : Option Platform
  depsInstalled : List String
  depsFailed : List (String × String)
  configsStowed : List String
  configsFailed : List StowError
  externalCloned : List ExternalDep
  externalFailed : List ExternalErrorE
  machineConfigs : List String
  errors : List String
  deriving Repr, DecidableEq

def emptyInstallResult : InstallResult := ⟨none, [], [], [], [], [], [], [], []⟩

/-- `(*InstallResult).HasErrors`. -/
def InstallResult.HasErrors (r : InstallResult) : Bool :=
  !r.depsFailed.isEmpty || !r.configsFailed.isEmpty ||
    !r.externalFailed.isEmpty || !r.errors.isEmpty

/-- The four skippable phases after platform detection. -/
inductive InstallPhase where
  | deps
  | stow
  | external
  | machine
  deriving Repr, DecidableEq

/-- Environment for `setup.Install`: the platform detector's outcome and,
per phase, the effect of the phase helper (`installDependencies`,
`stowConfigs`, `cloneExternal`, `configureMachine`) on the aggregate result
together with the `error` value it returns. -/
structure SetupEnv where
  detect : Option Platform
  depsStep : InstallResult → InstallResult × Option String
  stowStep : InstallResult → InstallResult × Option String
  externalStep : InstallResult → InstallResult × Option String
  machineStep : InstallResult → InstallResult × Option String

/-- One `if !opts.SkipX { if err := phase(...); err != nil { append to
result.Errors } }` block of `setup.Install`, also recording that the phase
was attempted. -/
def runPhase (skip : Bool) (ph : InstallPhase)
    (step : InstallResult → InstallResult × Option String)
    (st : InstallResult × List InstallPhase) : InstallResult × List InstallPhase :=
  if skip then st
  else
    let out := step st.1
    let r :=
      match out.2 with
      | some msg => { out.1 with errors := out.1.errors ++ [msg] }
      | none => out.1
    (r, st.2 ++ [ph])

/-- State after platform detection succeeded with `p`. -/
def installInit (p : Platform) : InstallResult × List InstallPhase :=
  ({ emptyInstallResult with platform := some p }, [])

def installAfterDeps (env : SetupEnv) (opts : InstallOptions) (p : Platform) :
    InstallResult × List InstallPhase :=
  runPhase opts.skipDeps .deps env.depsStep (installInit p)

def installAfterStow (env : SetupEnv) (opts : InstallOptions) (p : Platform) :
    InstallResult × List InstallPhase :=
  runPhase opts.skipStow .stow env.stowStep (installAfterDeps env opts p)

def installAfterExternal (env : SetupEnv) (opts : InstallOptions) (p : Platform) :
    InstallResult × List InstallPhase :=
  runPhase opts.skipExternal .external env.externalStep (installAfterStow env opts p)

def installAfterMachine (env : SetupEnv) (opts : InstallOptions) (p : Platform) :
    InstallResult × List InstallPhase :=
  runPhase opts.skipMachine .machine env.machineStep (installAfterExternal env opts p)

/-- `setup.Install`: detect the platform (fatal on failure: `none`), then
run the four phases in order, appending each phase's returned error to the
aggregate and never aborting; the second component lists the phases that
were attempted, in order. -/
def Install (env : SetupEnv) (opts : InstallOptions) :
    Option (InstallResult × List InstallPhase) :=
  match env.detect with
  | none => none
  | some p => some (installAfterMachine env opts p)

/-! ## internal/setup: the update orchestrator (setup/update.go)

The `config` and `state` packages are not part of the sources (only their
callers and tests are); the parts the update orchestrator reads are
modelled from the spec below. -/

/-- Modelled from the spec: the `config` package's manifest object — the
source only shows its callers.  Per §3 it groups configuration items into
`core`, `optional` and `archived`, and declares external assets; only the
fields the update orchestrator reads are included. -/
structure Config where
  core : List ConfigItem
  optional : List ConfigItem
  archived : List ConfigItem
  external : List ExternalDep
  deriving Repr, DecidableEq

/-- Modelled from the spec: `config.GetConfigByName` — missing with the
`config` package.  It resolves a name recorded in the state to the declared
configuration item; the spec presents the declared groups uniformly, so the
lookup searches all declared groups in declaration order. -/
def Config.GetConfigByName (cfg : Config) (n : String) : Option ConfigItem :=
  (cfg.core ++ cfg.optional ++ cfg.archived).find? (fun c => c.name == n)

/-- Modelled from the spec: one entry of the persisted state's installed
configuration groups (`st.Configs`, read by name in every caller). -/
structure StateConfig where
  name : String
  deriving Repr, DecidableEq

/-- Modelled from the spec: the persisted `state.State`, restricted to the
installed configuration groups the update orchestrator reads. -/
structure State where
  configs : List StateConfig
  deriving Repr, DecidableEq

/-- `setup.UpdateOptions`. -/
structure UpdateOptions where
  updateExternal : Bool
  skipRestow : Bool
  deriving Repr, DecidableEq

/-- Externally visible operations of one `setup.Update` run, in order. -/
inductive UpdateStep where
  | gitPull (args : List String)
  | reloadConfig
  | restow (items : List ConfigItem)
  | updateExternals
  deriving Repr, DecidableEq

/-- Environment for `setup.Update`: git probing results and the outcome of
the manifest reload. -/
structure UpdateEnv where
  gitDirExists : Bool
  headBefore : String
  pullOk : Bool
  headAfter : String
  configFileChanged : Bool
  reloaded : Option Config

/-- The argument list of the `git pull` the update orchestrator runs in the
dotfiles repository (setup/update.go line 48). -/
def updatePullArgs : List String := ["pull", "--rebase"]

/-- The `configsToRestow` selection of `setup.Update`: the groups recorded
in the state when it exists and is non-empty, otherwise all core groups. -/
def updateConfigsToRestow (cfg : Config) (st : Option State) : List ConfigItem :=
  match st with
  | some s =>
    if 0 < s.configs.length then
      s.configs.filterMap (fun sc => cfg.GetConfigByName sc.name)
    else cfg.core
  | none => cfg.core

/-- Whether `setup.Update` observed a HEAD change (both hashes were
obtained and differ). -/
def updateHeadChanged (env : UpdateEnv) : Bool :=
  env.headBefore != "" && env.headAfter != "" && env.headBefore != env.headAfter

/-- The manifest in effect after the pull: reloaded when the HEAD changed,
the manifest file changed between the heads, and the reload succeeded. -/
def updateEffectiveConfig (env : UpdateEnv) (cfg : Config) : Config :=
  if updateHeadChanged env then
    if env.configFileChanged then
      match env.reloaded with
      | some newCfg => newCfg
      | none => cfg
    else cfg
  else cfg

/-- `setup.Update`: verify the dotfiles path is a git repository, run
`git pull --rebase` (fatal on failure), reload the manifest if it changed,
restow the selected groups unless skipped (and only when the selection is
non-empty), and refresh external assets when requested and declared. -/
def Update (env : UpdateEnv) (cfg : Config) (dotfilesPath : String) (st : Option State)
    (opts : UpdateOptions) : Except String (List UpdateStep) :=
  if !env.gitDirExists then .error (dotfilesPath ++ " is not a git repository")
  else if !env.pullOk then .error "git pull failed"
  else
    let cfg2 := updateEffectiveConfig env cfg
    let reloadSteps :=
      if updateHeadChanged env && env.configFileChanged then [UpdateStep.reloadConfig] else []
    let restowSteps :=
      if opts.skipRestow then []
      else
        let items := updateConfigsToRestow cfg2 st
        if 0 < items.length then [UpdateStep.restow items] else []
    let extSteps :=
      if opts.updateExternal && 0 < cfg2.external.length then [UpdateStep.updateExternals]
      else []
    .ok ([UpdateStep.gitPull updatePullArgs] ++ reloadSteps ++ restowSteps ++ extSteps)

/-- How many times a name is recorded across the three outcome lists. -/
def stowNameCount (n : String) (r : StowResult) : Nat :=
  r.skipped.count n + r.success.count n + (r.failed.map (fun e => e.configName)).count n

/-- How many times a dependency is recorded across the four outcome lists. -/
def extDepCount (x : ExternalDep) (r : ExternalResult) : Nat :=
  r.cloned.count x + r.updated.count x +
    (r.failed.map (fun e => e.dep)).count x + (r.skipped.map (fun s => s.dep)).count x

/-- The shape of the four phase helpers of `setup.Install`: each helper only
writes its own result fields — it never removes previously recorded errors
and never touches the detected platform. -/
def stepPreserves (step : InstallResult → InstallResult × Option String) : Prop :=
  (∀ r, ∃ tail, ((step r).1).errors = r.errors ++ tail) ∧
  (∀ r, ((step r).1).platform = r.platform)

/-! ## Concrete sample environments (used to evaluate the theorems) -/

def samplePlatform : Platform := ⟨"linux", "fedora", "dnf", "x86_64", false⟩

/-- A stow environment where only `/dots/git` exists as a source directory;
`stow`/`restow` invocations succeed, `unstow` invocations fail. -/
def sampleStowEnv : StowEnv :=
  ⟨fun p => p == "/dots/git", fun _ => true, fun _ => false, fun _ => true⟩

def sampleGitEnv : GitEnv :=
  ⟨some "/home/u", id, joinPath, true, fun _ _ => true, fun _ _ => true, fun _ => true⟩

def sampleGitEnvNoGit : GitEnv :=
  ⟨some "/home/u", id, joinPath, false, fun _ _ => true, fun _ _ => true, fun _ => true⟩

/-- A filesystem where only the TPM destination already exists. -/
def sampleFS : FS := ⟨fun p => p == "/home/u/.tmux/plugins/tpm", fun _ => true⟩

def sampleDep : ExternalDep :=
  ⟨"tpm", "TPM", "https://github.com/tmux-plugins/tpm", "~/.tmux/plugins/tpm", "clone", []⟩

def confirmField : PromptField := ⟨"enable", "Enable feature", "confirm", "", false⟩

def sampleSetupEnv : SetupEnv :=
  ⟨some samplePlatform,
   fun r => (r, some "deps phase failed"),
   fun r => (r, none),
   fun r => (r, none),
   fun r => (r, none)⟩

def sampleInstallOptions : InstallOptions := ⟨false, false, false, false, false, false, false⟩

/-- An update environment: the repository is a git repo, the pull succeeds
and HEAD does not change. -/
def sampleUpdateEnv : UpdateEnv := ⟨true, "abc123", true, "abc123", false, none⟩

def sampleConfig : Config := ⟨[⟨"git", "git"⟩], [], [], []⟩

/-! ## Generic lemmas about the batch loops -/

theorem foldl_pres {α σ : Type*} (f : σ → α → σ) (P : σ → Prop)
    (hf : ∀ s a, P s → P (f s a)) :
    ∀ (l : List α) (s : σ), P s → P (l.foldl f s) := by
  intro l
  induction l with
  | nil => intro s h; simpa using h
  | cons c cs ih => intro s h; simpa using ih (f s c) (hf s c h)

theorem foldl_establish {α σ : Type*} (f : σ → α → σ) (x : α) (Inv P : σ → Prop)
    (hInv : ∀ s a, Inv s → Inv (f s a))
    (hP : ∀ s a, P s → P (f s a))
    (hEst : ∀ s, Inv s → P (f s x)) :
    ∀ (l : List α) (s : σ), x ∈ l → Inv s → P (l.foldl f s) := by
  intro l
  induction l with
  | nil => intro s hx; exact absurd hx (List.not_mem_nil x)
  | cons c cs ih =>
    intro s hx hs
    rcases List.mem_cons.mp hx with h | h
    · subst h
      exact foldl_pres f P hP cs (f s x) (hEst s hs)
    · exact ih (f s c) h (hInv s c hs)

theorem foldl_new_from {α σ β : Type*} (f : σ → α → σ) (g : σ → List β) (R : α → β → Prop)
    (hf : ∀ s a x, x ∈ g (f s a) → x ∈ g s ∨ R a x) :
    ∀ (l : List α) (s : σ) (x : β),
      x ∈ g (l.foldl f s) → x ∈ g s ∨ ∃ a ∈ l, R a x := by
  intro l
  induction l with
  | nil => intro s x h; exact Or.inl (by simpa using h)
  | cons c cs ih =>
    intro s x h
    rcases ih (f s c) x (by simpa using h) with h' | ⟨a, ha, hr⟩
    · rcases hf s c x h' with h'' | hr
      · exact Or.inl h''
      · exact Or.inr ⟨c, List.mem_cons_self c cs, hr⟩
    · exact Or.inr ⟨a, List.mem_cons_of_mem c ha, hr⟩

theorem foldl_count {α σ : Type*} (f : σ → α → σ) (cnt : σ → Nat) (w : α → Nat)
    (hf : ∀ s a, cnt (f s a) = cnt s + w a) :
    ∀ (l : List α) (s : σ), cnt (l.foldl f s) = cnt s + (l.map w).sum := by
  intro l
  induction l with
  | nil => intro s; simp
  | cons c cs ih =>
    intro s
    simp only [List.foldl_cons, List.map_cons, List.sum_cons]
    rw [ih (f s c), hf s c]
    omega

/-! ## Lemmas about the stow batch operations -/

theorem stowConfigsStep_count (env : StowEnv) (d : String) (n : String)
    (acc : StowResult × List String) (c : ConfigItem) :
    stowNameCount n (stowConfigsStep env d acc c).1 =
      stowNameCount n acc.1 + (if c.name = n then 1 else 0) := by
  obtain ⟨r, calls⟩ := acc
  simp only [stowConfigsStep]
  by_cases h1 : env.dirExists (joinPath d c.path) <;>
    by_cases h2 : env.stowOk c.path <;>
      simp [h1, h2, stowNameCount, List.count_append, List.count_singleton'] <;> omega

theorem unstowConfigsStep_count (env : StowEnv) (n : String)
    (acc : StowResult × List String) (c : ConfigItem) :
    stowNameCount n (unstowConfigsStep env acc c).1 =
      stowNameCount n acc.1 + (if c.name = n then 1 else 0) := by
  obtain ⟨r, calls⟩ := acc
  simp only [unstowConfigsStep]
  by_cases h2 : env.unstowOk c.path <;>
    simp [h2, stowNameCount, List.count_append, List.count_singleton'] <;> omega

theorem restowConfigsStep_count (env : StowEnv) (d : String) (n : String)
    (acc : StowResult × List String) (c : ConfigItem) :
    stowNameCount n (restowConfigsStep env d acc c).1 =
      stowNameCount n acc.1 + (if c.name = n then 1 else 0) := by
  obtain ⟨r, calls⟩ := acc
  simp only [restowConfigsStep]
  by_cases h1 : env.dirExists (joinPath d c.path) <;>
    by_cases h2 : env.restowOk c.path <;>
      simp [h1, h2, stowNameCount, List.count_append, List.count_singleton'] <;> omega

theorem sum_name_weights (n : String) (l : List ConfigItem) :
    (l.map (fun c => if c.name = n then 1 else 0)).sum = (l.map ConfigItem.name).count n := by
  induction l with
  | nil => simp
  | cons c cs ih =>
    simp only [List.map_cons, List.sum_cons, List.count_cons, ih]
    by_cases h : c.name = n
    · simp [h]
      omega
    · simp [h, Ne.symm h]

theorem stowConfigsStep_skip (env : StowEnv) (d : String) (r : StowResult)
    (calls : List String) (c : ConfigItem)
    (h : env.dirExists (joinPath d c.path) = false) :
    stowConfigsStep env d (r, calls) c =
      ({ r with skipped := r.skipped ++ [c.name] }, calls) := by
  simp [stowConfigsStep, h]

theorem restowConfigsStep_skip (env : StowEnv) (d : String) (r : StowResult)
    (calls : List String) (c : ConfigItem)
    (h : env.dirExists (joinPath d c.path) = false) :
    restowConfigsStep env d (r, calls) c =
      ({ r with skipped := r.skipped ++ [c.name] }, calls) := by
  simp [restowConfigsStep, h]

theorem stowConfigsStep_skipped_mono (env : StowEnv) (d : String)
    (s : StowResult × List String) (c : ConfigItem) (x : String)
    (h : x ∈ s.1.skipped) : x ∈ (stowConfigsStep env d s c).1.skipped := by
  obtain ⟨r, calls⟩ := s
  simp only [stowConfigsStep]
  by_cases h1 : env.dirExists (joinPath d c.path) <;>
    by_cases h2 : env.stowOk c.path <;>
      simp_all

theorem restowConfigsStep_skipped_mono (env : StowEnv) (d : String)
    (s : StowResult × List String) (c : ConfigItem) (x : String)
    (h : x ∈ s.1.skipped) : x ∈ (restowConfigsStep env d s c).1.skipped := by
  obtain ⟨r, calls⟩ := s
  simp only [restowConfigsStep]
  by_cases h1 : env.dirExists (joinPath d c.path) <;>
    by_cases h2 : env.restowOk c.path <;>
      simp_all

theorem stowConfigsStep_failed_from (env : StowEnv) (d : String)
    (s : StowResult × List String) (c : ConfigItem) (e : StowError)
    (h : e ∈ (stowConfigsStep env d s c).1.failed) :
    e ∈ s.1.failed ∨
      (e.configName = c.name ∧ env.dirExists (joinPath d c.path) = true) := by
  obtain ⟨r, calls⟩ := s
  simp only [stowConfigsStep] at h
  by_cases h1 : env.dirExists (joinPath d c.path) <;>
    by_cases h2 : env.stowOk c.path <;> simp_all
  rcases h with h | h
  · exact Or.inl h
  · exact Or.inr (by simp [h])

theorem restowConfigsStep_failed_from (env : StowEnv) (d : String)
    (s : StowResult × List String) (c : ConfigItem) (e : StowError)
    (h : e ∈ (restowConfigsStep env d s c).1.failed) :
    e ∈ s.1.failed ∨
      (e.configName = c.name ∧ env.dirExists (joinPath d c.path) = true) := by
  obtain ⟨r, calls⟩ := s
  simp only [restowConfigsStep] at h
  by_cases h1 : env.dirExists (joinPath d c.path) <;>
    by_cases h2 : env.restowOk c.path <;> simp_all
  rcases h with h | h
  · exact Or.inl h
  · exact Or.inr (by simp [h])

theorem stowConfigsStep_calls_from (env : StowEnv) (d : String)
    (s : StowResult × List String) (c : ConfigItem) (pth : String)
    (h : pth ∈ (stowConfigsStep env d s c).2) :
    pth ∈ s.2 ∨ (pth = c.path ∧ env.dirExists (joinPath d c.path) = true) := by
  obtain ⟨r, calls⟩ := s
  simp only [stowConfigsStep] at h
  by_cases h1 : env.dirExists (joinPath d c.path) <;>
    by_cases h2 : env.stowOk c.path <;> simp_all

theorem restowConfigsStep_calls_from (env : StowEnv) (d : String)
    (s : StowResult × List String) (c : ConfigItem) (pth : String)
    (h : pth ∈ (restowConfigsStep env d s c).2) :
    pth ∈ s.2 ∨ (pth = c.path ∧ env.dirExists (joinPath d c.path) = true) := by
  obtain ⟨r, calls⟩ := s
  simp only [restowConfigsStep] at h
  by_cases h1 : env.dirExists (joinPath d c.path) <;>
    by_cases h2 : env.restowOk c.path <;> simp_all

theorem StowConfigs_missing_mem (env : StowEnv) (d : String) (configs : List ConfigItem)
    (item : ConfigItem) (hmem : item ∈ configs)
    (h : env.dirExists (joinPath d item.path) = false) :
    item.name ∈ (StowConfigs env d configs).1.skipped := by
  unfold StowConfigs
  refine foldl_establish (stowConfigsStep env d) item (fun _ => True)
    (fun s => item.name ∈ s.1.skipped) (fun _ _ _ => trivial)
    (fun s c hx => stowConfigsStep_skipped_mono env d s c _ hx)
    (fun s _ => ?_) configs (emptyStowResult, []) hmem trivial
  obtain ⟨r, calls⟩ := s
  rw [stowConfigsStep_skip env d r calls item h]
  simp

theorem RestowConfigs_missing_mem (env : StowEnv) (d : String) (configs : List ConfigItem)
    (item : ConfigItem) (hmem : item ∈ configs)
    (h : env.dirExists (joinPath d item.path) = false) :
    item.name ∈ (RestowConfigs env d configs).1.skipped := by
  unfold RestowConfigs
  refine foldl_establish (restowConfigsStep env d) item (fun _ => True)
    (fun s => item.name ∈ s.1.skipped) (fun _ _ _ => trivial)
    (fun s c hx => restowConfigsStep_skipped_mono env d s c _ hx)
    (fun s _ => ?_) configs (emptyStowResult, []) hmem trivial
  obtain ⟨r, calls⟩ := s
  rw [restowConfigsStep_skip env d r calls item h]
  simp

/-- C5 counterexample — the claim also covers `UnstowConfigs`, but
`UnstowConfigs` performs no source-directory check: with the `git` source
directory absent (`sampleStowEnv.dirExists "/dots/git2" = false` for the
path used here) the item is still attempted, the external tool is invoked
(the call list is `["git2"]`), and the item lands in `Failed`, never in
`Skipped`. -/
theorem unstow_missing_source_counterexample :
    sampleStowEnv.dirExists (joinPath "/dots" "git2") = false ∧
    UnstowConfigs sampleStowEnv "/dots" [⟨"git", "git2"⟩] =
      (⟨[], [⟨"git", "unstow failed"⟩], []⟩, ["git2"]) ∧
    "git" ∉ (UnstowConfigs sampleStowEnv "/dots" [⟨"git", "git2"⟩]).1.skipped := by
  refine ⟨rfl, rfl, ?_⟩
  intro h
  simp [UnstowConfigs, unstowConfigsStep, sampleStowEnv, emptyStowResult] at h

/-- C5 (amended): for `StowConfigs` and `RestowConfigs`, an item whose
source directory under the dotfiles root does not exist is recorded in
`Skipped`; every `Failed` entry and every invocation of the external stow
tool comes from an item whose source directory exists.  (`UnstowConfigs`
performs no such check.) -/
theorem stow_missing_source_skipped (env : StowEnv) (d : String)
    (configs : List ConfigItem) (item : ConfigItem)
    (hmem : item ∈ configs)
    (h : env.dirExists (joinPath d item.path) = false) :
    (item.name ∈ (StowConfigs env d configs).1.skipped ∧
     item.name ∈ (RestowConfigs env d configs).1.skipped) ∧
    (∀ (r : StowResult) (calls : List String),
      stowConfigsStep env d (r, calls) item =
        ({ r with skipped := r.skipped ++ [item.name] }, calls) ∧
      restowConfigsStep env d (r, calls) item =
        ({ r with skipped := r.skipped ++ [item.name] }, calls)) ∧
    (∀ e ∈ (StowConfigs env d configs).1.failed,
      ∃ c ∈ configs, e.configName = c.name ∧
        env.dirExists (joinPath d c.path) = true) ∧
    (∀ pth ∈ (StowConfigs env d configs).2,
      ∃ c ∈ configs, pth = c.path ∧ env.dirExists (joinPath d c.path) = true) ∧
    (∀ e ∈ (RestowConfigs env d configs).1.failed,
      ∃ c ∈ configs, e.configName = c.name ∧
        env.dirExists (joinPath d c.path) = true) ∧
    (∀ pth ∈ (RestowConfigs env d configs).2,
      ∃ c ∈ configs, pth = c.path ∧ env.dirExists (joinPath d c.path) = true) := by
  refine ⟨⟨StowConfigs_missing_mem env d configs item hmem h,
           RestowConfigs_missing_mem env d configs item hmem h⟩,
          fun r calls => ⟨stowConfigsStep_skip env d r calls item h,
                          restowConfigsStep_skip env d r calls item h⟩,
          ?_, ?_, ?_, ?_⟩
  · intro e he
    rcases foldl_new_from (stowConfigsStep env d) (fun s => s.1.failed)
        (fun c e => e.configName = c.name ∧ env.dirExists (joinPath d c.path) = true)
        (fun s c x hx => stowConfigsStep_failed_from env d s c x hx)
        configs (emptyStowResult, []) e he with h' | h'
    · simp [emptyStowResult] at h'
    · exact h'
  · intro pth hp
    rcases foldl_new_from (stowConfigsStep env d) (fun s => s.2)
        (fun c pth => pth = c.path ∧ env.dirExists (joinPath d c.path) = true)
        (fun s c x hx => stowConfigsStep_calls_from env d s c x hx)
        configs (emptyStowResult, []) pth hp with h' | h'
    · simp at h'
    · exact h'
  · intro e he
    rcases foldl_new_from (restowConfigsStep env d) (fun s => s.1.failed)
        (fun c e => e.configName = c.name ∧ env.dirExists (joinPath d c.path) = true)
        (fun s c x hx => restowConfigsStep_failed_from env d s c x hx)
        configs (emptyStowResult, []) e he with h' | h'
    · simp [emptyStowResult] at h'
    · exact h'
  · intro pth hp
    rcases foldl_new_from (restowConfigsStep env d) (fun s => s.2)
        (fun c pth => pth = c.path ∧ env.dirExists (joinPath d c.path) = true)
        (fun s c x hx => restowConfigsStep_calls_from env d s c x hx)
        configs (emptyStowResult, []) pth hp with h' | h'
    · simp at h'
    · exact h'

/-! ## Lemmas about `CloneExternal` -/

theorem processExternal_count (env : GitEnv) (p : Platform) (opts : ExternalOptions)
    (acc : ExternalResult × FS) (ext x : ExternalDep) :
    extDepCount x (processExternal env p opts acc ext).1 =
      extDepCount x acc.1 + (if ext = x then 1 else 0) := by
  obtain ⟨r, fs⟩ := acc
  by_cases hx : ext = x
  · subst hx
    simp only [processExternal]
    repeat' split
    all_goals simp [extDepCount, List.count_append, List.count_singleton', List.map_append]
    all_goals first
    | omega
    | simp_all
  · simp only [processExternal]
    repeat' split
    all_goals simp [extDepCount, List.count_append, List.count_singleton', List.map_append, hx]

theorem sum_dep_weights (x : ExternalDep) (l : List ExternalDep) :
    (l.map (fun a => if a = x then 1 else 0)).sum = l.count x := by
  induction l with
  | nil => simp
  | cons c cs ih =>
    simp only [List.map_cons, List.sum_cons, List.count_cons, ih]
    by_cases h : c = x
    · simp [h]
      omega
    · simp [h, Ne.symm h]

theorem cloneExternal_fold_count (env : GitEnv) (p : Platform) (opts : ExternalOptions)
    (fs : FS) (external : List ExternalDep) (x : ExternalDep) :
    extDepCount x (external.foldl (processExternal env p opts) (emptyExternalResult, fs)).1 =
      external.count x := by
  rw [foldl_count (processExternal env p opts) (fun s => extDepCount x s.1)
    (fun a => if a = x then 1 else 0)
    (fun s a => processExternal_count env p opts s a x) external (emptyExternalResult, fs)]
  simp [extDepCount, emptyExternalResult, sum_dep_weights]

theorem stowConfigs_fold_count (env : StowEnv) (d : String)
    (configs : List ConfigItem) (n : String) :
    stowNameCount n (StowConfigs env d configs).1 = (configs.map ConfigItem.name).count n := by
  unfold StowConfigs
  rw [foldl_count (stowConfigsStep env d) (fun s => stowNameCount n s.1)
    (fun c => if c.name = n then 1 else 0)
    (fun s a => stowConfigsStep_count env d n s a) configs (emptyStowResult, [])]
  simp [stowNameCount, emptyStowResult, sum_name_weights]

theorem unstowConfigs_fold_count (env : StowEnv) (d : String)
    (configs : List ConfigItem) (n : String) :
    stowNameCount n (UnstowConfigs env d configs).1 = (configs.map ConfigItem.name).count n := by
  unfold UnstowConfigs
  rw [foldl_count (unstowConfigsStep env) (fun s => stowNameCount n s.1)
    (fun c => if c.name = n then 1 else 0)
    (fun s a => unstowConfigsStep_count env n s a) configs (emptyStowResult, [])]
  simp [stowNameCount, emptyStowResult, sum_name_weights]

theorem restowConfigs_fold_count (env : StowEnv) (d : String)
    (configs : List ConfigItem) (n : String) :
    stowNameCount n (RestowConfigs env d configs).1 = (configs.map ConfigItem.name).count n := by
  unfold RestowConfigs
  rw [foldl_count (restowConfigsStep env d) (fun s => stowNameCount n s.1)
    (fun c => if c.name = n then 1 else 0)
    (fun s a => restowConfigsStep_count env d n s a) configs (emptyStowResult, [])]
  simp [stowNameCount, emptyStowResult, sum_name_weights]

/-- From a name-count bounded by one and the name being in `skipped`, it is
in neither of the other two lists. -/
theorem stow_disjoint_of_count (r : StowResult) (n : String)
    (hc : stowNameCount n r ≤ 1) (hn : n ∈ r.skipped) :
    n ∉ r.success ∧ ∀ e ∈ r.failed, e.configName ≠ n := by
  have h1 : 0 < r.skipped.count n := List.count_pos_iff.mpr hn
  constructor
  · intro hmem
    have h2 : 0 < r.success.count n := List.count_pos_iff.mpr hmem
    simp only [stowNameCount] at hc
    omega
  · intro e he heq
    have h2 : 0 < (r.failed.map (fun e => e.configName)).count n :=
      List.count_pos_iff.mpr (List.mem_map.mpr ⟨e, he, heq⟩)
    simp only [stowNameCount] at hc
    omega

/-- From a dependency count bounded by one and a skip record for the
dependency, it is in neither `Cloned` nor `Failed`. -/
theorem ext_disjoint_of_count (r : ExternalResult) (s : ExternalSkipped)
    (hc : extDepCount s.dep r ≤ 1) (hs : s ∈ r.skipped) :
    s.dep ∉ r.cloned ∧ ∀ e ∈ r.failed, e.dep ≠ s.dep := by
  have h1 : 0 < (r.skipped.map (fun k => k.dep)).count s.dep :=
    List.count_pos_iff.mpr (List.mem_map.mpr ⟨s, hs, rfl⟩)
  constructor
  · intro hmem
    have h2 : 0 < r.cloned.count s.dep := List.count_pos_iff.mpr hmem
    simp only [extDepCount] at hc
    omega
  · intro e he heq
    have h2 : 0 < (r.failed.map (fun e => e.dep)).count s.dep :=
      List.count_pos_iff.mpr (List.mem_map.mpr ⟨e, he, heq⟩)
    simp only [extDepCount] at hc
    omega

theorem processExternal_fs_mono (env : GitEnv) (p : Platform) (opts : ExternalOptions)
    (s : ExternalResult × FS) (ext : ExternalDep) (q : String)
    (h : s.2.pathExists q = true) :
    (processExternal env p opts s ext).2.pathExists q = true := by
  obtain ⟨r, fs⟩ := s
  simp only at h
  simp only [processExternal]
  repeat' split
  all_goals simp [FS.withPath, h]

theorem processExternal_skipped_mono (env : GitEnv) (p : Platform) (opts : ExternalOptions)
    (s : ExternalResult × FS) (ext : ExternalDep) (x : ExternalSkipped)
    (h : x ∈ s.1.skipped) :
    x ∈ (processExternal env p opts s ext).1.skipped := by
  obtain ⟨r, fs⟩ := s
  simp only at h
  simp only [processExternal]
  repeat' split
  all_goals simp [h]

theorem processExternal_failed_from (env : GitEnv) (p : Platform) (opts : ExternalOptions)
    (s : ExternalResult × FS) (ext : ExternalDep) (x : ExternalErrorE)
    (h : x ∈ (processExternal env p opts s ext).1.failed) :
    x ∈ s.1.failed ∨ x.dep = ext := by
  obtain ⟨r, fs⟩ := s
  simp only [processExternal] at h
  revert h
  repeat' split
  all_goals intro h
  all_goals simp_all
  all_goals rcases h with h | h
  all_goals simp_all

theorem processExternal_cloned_from (env : GitEnv) (p : Platform) (opts : ExternalOptions)
    (s : ExternalResult × FS) (ext : ExternalDep) (x : ExternalDep)
    (h : x ∈ (processExternal env p opts s ext).1.cloned) :
    x ∈ s.1.cloned ∨ x = ext := by
  obtain ⟨r, fs⟩ := s
  simp only [processExternal] at h
  revert h
  repeat' split
  all_goals intro h
  all_goals simp_all

/-- The `exists && !(update && isGit)` branch of the `CloneExternal` loop:
with `Update=false` an existing destination is always skipped as
"already exists", leaving the filesystem untouched. -/
theorem processExternal_already_exists (env : GitEnv) (p : Platform)
    (opts : ExternalOptions) (r : ExternalResult) (fs : FS) (ext : ExternalDep)
    (destPath : String)
    (hu : opts.update = false)
    (hc : checkCondition ext.condition p = true)
    (he : expandPath env ext.destination = some destPath)
    (hex : fs.pathExists destPath = true) :
    processExternal env p opts (r, fs) ext =
      ({ r with skipped := r.skipped ++ [⟨ext, "already exists"⟩] }, fs) := by
  simp [processExternal, hc, he, checkDestination, hex, hu]

theorem finishLine_true (p : PromptField) (retry : Except String String) :
    finishLine p "true" retry = .ok "true" := by
  simp [finishLine, show goTrim "true" = "true" from rfl]

theorem finishLine_false (p : PromptField) (retry : Except String String) :
    finishLine p "false" retry = .ok "false" := by
  simp [finishLine, show goTrim "false" = "false" from rfl]

/-- C4 counterexample — the claim says every input other than
`y/yes/true/1` yields `"false"`, but an unrecognised line such as `"maybe"`
re-prompts instead: with no further input the collection ends with `""`
(the `io.EOF` path for an optional field), not `"false"`. -/
theorem confirm_normalization_counterexample :
    collectSinglePrompt confirmField ["maybe"] false = .ok "" ∧
    (Except.ok "" : Except String String) ≠ .ok "false" := by
  refine ⟨rfl, ?_⟩
  intro h
  rw [Except.ok.injEq] at h
  exact absurd h (by decide)

/-- C4 (amended): for a `confirm` field, a line whose trimmed lower-cased
value is `y`/`yes`/`true`/`1` yields `"true"`; `n`/`no`/`false`/`0` or the
empty line yields `"false"`; any other line is rejected with a re-prompt and
collection continues with the remaining input. -/
theorem confirm_normalization (p : PromptField) (line : String) (rest : List String)
    (t : String) (hp : p.type = "confirm") (ht : t = goToLower (goTrim line)) :
    ((t = "y" ∨ t = "yes" ∨ t = "true" ∨ t = "1") →
      collectSinglePrompt p (line :: rest) false = .ok "true") ∧
    ((t = "n" ∨ t = "no" ∨ t = "false" ∨ t = "0" ∨ t = "") →
      collectSinglePrompt p (line :: rest) false = .ok "false") ∧
    ((t ≠ "y" ∧ t ≠ "yes" ∧ t ≠ "true" ∧ t ≠ "1" ∧
      t ≠ "n" ∧ t ≠ "no" ∧ t ≠ "false" ∧ t ≠ "0" ∧ t ≠ "") →
      collectSinglePrompt p (line :: rest) false = collectSinglePrompt p rest false) := by
  refine ⟨?_, ?_, ?_⟩
  · intro h
    rcases h with h | h | h | h <;>
      rw [ht] at h <;>
        simp [collectSinglePrompt, collectLoop, hp, h, finishLine_true]
  · intro h
    rcases h with h | h | h | h | h <;>
      rw [ht] at h <;>
        simp [collectSinglePrompt, collectLoop, hp, h, finishLine_false]
  · intro h
    obtain ⟨h1, h2, h3, h4, h5, h6, h7, h8, h9⟩ := h
    rw [ht] at h1 h2 h3 h4 h5 h6 h7 h8 h9
    simp [collectSinglePrompt, collectLoop, hp, h1, h2, h3, h4, h5, h6, h7, h8, h9]

/-- C4 witness: the amended normalisation evaluated on concrete lines. -/
theorem confirm_normalization_witness :
    collectSinglePrompt confirmField ["Y"] false = .ok "true" ∧
    collectSinglePrompt confirmField [""] false = .ok "false" ∧
    collectSinglePrompt confirmField ["maybe", "yes"] false =
      collectSinglePrompt confirmField ["yes"] false := by
  refine ⟨?_, ?_, ?_⟩
  · exact (confirm_normalization confirmField "Y" [] "y" rfl rfl).1 (Or.inl rfl)
  · exact (confirm_normalization confirmField "" [] "" rfl rfl).2.1
      (Or.inr (Or.inr (Or.inr (Or.inr rfl))))
  · exact (confirm_normalization confirmField "maybe" ["yes"] "maybe" rfl rfl).2.2
      (by refine ⟨?_, ?_, ?_, ?_, ?_, ?_, ?_, ?_, ?_⟩ <;> decide)

/-- C6: condition evaluation — `{os: "linux,darwin"}` rejects platform OS
`windows` and accepts `linux` and `darwin`; an unsatisfied condition is
recorded as skipped with reason "condition not met"; comma-separated values
are alternatives; the condition holds exactly when every entry of the
condition map matches. -/
theorem external_condition_evaluation :
    (∀ p : Platform, p.os = "windows" →
      checkCondition [("os", "linux,darwin")] p = false) ∧
    (∀ p : Platform, p.os = "linux" ∨ p.os = "darwin" →
      checkCondition [("os", "linux,darwin")] p = true) ∧
    (∀ (env : GitEnv) (pp : Platform) (opts : ExternalOptions)
        (r : ExternalResult) (fs : FS) (ext : ExternalDep),
      checkCondition ext.condition pp = false →
      processExternal env pp opts (r, fs) ext =
        ({ r with skipped := r.skipped ++ [⟨ext, "condition not met"⟩] }, fs)) ∧
    (∀ actual expected : String,
      matchesValue actual expected = true ↔
        ∃ v ∈ goSplit expected ',', goTrim v = actual) ∧
    (∀ (condition : List (String × String)) (p : Platform),
      checkCondition condition p = true ↔
        ∀ kv ∈ condition, checkConditionEntry p kv = true) := by
  refine ⟨?_, ?_, ?_, ?_, ?_⟩
  · intro p h
    rw [show checkCondition [("os", "linux,darwin")] p =
      (matchesValue p.os "linux,darwin" && true) from rfl, h]
    decide
  · intro p h
    rcases h with h | h <;>
      rw [show checkCondition [("os", "linux,darwin")] p =
        (matchesValue p.os "linux,darwin" && true) from rfl, h] <;> decide
  · intro env pp opts r fs ext hc
    simp [processExternal, hc]
  · intro actual expected
    simp [matchesValue, List.any_eq_true]
  · intro condition p
    exact List.all_eq_true

/-- C6 witness: the theorem evaluated at windows/linux platforms and at an
asset whose condition fails. -/
theorem external_condition_evaluation_witness :
    checkCondition [("os", "linux,darwin")] ⟨"windows", "", "", "x86_64", false⟩ = false ∧
    checkCondition [("os", "linux,darwin")] samplePlatform = true ∧
    processExternal sampleGitEnv ⟨"windows", "", "", "x86_64", false⟩ ⟨false, false⟩
        (emptyExternalResult, sampleFS)
        ⟨"x", "X", "u", "~/x", "clone", [("os", "linux,darwin")]⟩ =
      ({ emptyExternalResult with
          skipped := [⟨⟨"x", "X", "u", "~/x", "clone", [("os", "linux,darwin")]⟩,
            "condition not met"⟩] }, sampleFS) := by
  refine ⟨?_, ?_, ?_⟩
  · exact external_condition_evaluation.1 ⟨"windows", "", "", "x86_64", false⟩ rfl
  · exact external_condition_evaluation.2.1 samplePlatform (Or.inl rfl)
  · have h := external_condition_evaluation.2.2.1 sampleGitEnv
      ⟨"windows", "", "", "x86_64", false⟩ ⟨false, false⟩ emptyExternalResult sampleFS
      ⟨"x", "X", "u", "~/x", "clone", [("os", "linux,darwin")]⟩ (by decide)
    simpa [emptyExternalResult] using h

/-- C7: with `skipPrompts=true` collection errors exactly when the field is
required with no default; with a default present (or the field optional) it
returns exactly the default without reading any input. -/
theorem skip_prompts_default_fallback (p : PromptField) (lines : List String) :
    ((∃ msg, collectSinglePrompt p lines true = .error msg) ↔
      (p.required = true ∧ p.default = "")) ∧
    (p.default ≠ "" → collectSinglePrompt p lines true = .ok p.default) ∧
    (p.required = false → collectSinglePrompt p lines true = .ok p.default) ∧
    (∀ lines' : List String,
      collectSinglePrompt p lines true = collectSinglePrompt p lines' true) := by
  by_cases hr : p.required <;> by_cases hd : p.default = "" <;>
    simp [collectSinglePrompt, hr, hd]

/-- C7 witness: the fallback behaviour evaluated on the end-to-end example
fields (`user_name` with default, a required field without one). -/
theorem skip_prompts_default_fallback_witness :
    collectSinglePrompt ⟨"user_name", "Full name", "text", "Test User", false⟩ ["ignored"]
      true = .ok "Test User" ∧
    (∃ msg, collectSinglePrompt ⟨"token", "API token", "text", "", true⟩ [] true =
      .error msg) := by
  constructor
  · exact (skip_prompts_default_fallback
      ⟨"user_name", "Full name", "text", "Test User", false⟩ ["ignored"]).2.1 (by decide)
  · exact (skip_prompts_default_fallback ⟨"token", "API token", "text", "", true⟩ []).1.mpr
      ⟨rfl, rfl⟩

/-- C8: the package-name mapping is the static lookup table — `fd` maps to
`fd-find` on apt and dnf and to `fd` on brew and pacman, and a name with no
table entry (or no entry for the given manager) passes through unchanged. -/
theorem package_name_mapping :
    (MapPackageName "fd" "apt" = "fd-find") ∧
    (MapPackageName "fd" "dnf" = "fd-find") ∧
    (MapPackageName "fd" "brew" = "fd") ∧
    (MapPackageName "fd" "pacman" = "fd") ∧
    (∀ name manager : String, packageMappings.lookup name = none →
      MapPackageName name manager = name) ∧
    (∀ (name manager : String) (pkgMap : List (String × String)),
      packageMappings.lookup name = some pkgMap → pkgMap.lookup manager = none →
      MapPackageName name manager = name) := by
  refine ⟨by decide, by decide, by decide, by decide, ?_, ?_⟩
  · intro name manager h
    simp [MapPackageName, h]
  · intro name manager pkgMap h h'
    simp [MapPackageName, h, h']

/-- C8 witness: pass-through evaluated at an unmapped name and at a mapped
name with an unmapped manager. -/
theorem package_name_mapping_witness :
    MapPackageName "bat" "apt" = "bat" ∧ MapPackageName "fd" "yum" = "fd" := by
  constructor
  · exact package_name_mapping.2.2.2.2.1 "bat" "apt" (by decide)
  · exact package_name_mapping.2.2.2.2.2 "fd" "yum"
      [("dnf", "fd-find"), ("apt", "fd-find"), ("brew", "fd"), ("pacman", "fd")]
      (by decide) (by decide)

/-- C10: with a non-empty external list and no `git` on PATH,
`CloneExternal` fails outright with no per-item results; with an empty
external list it returns an empty result without consulting the `git`
probe at all. -/
theorem clone_external_git_gate (env : GitEnv) (fs : FS) (external : List ExternalDep)
    (p : Platform) (opts : ExternalOptions) :
    (external ≠ [] → env.gitOnPath = false →
      CloneExternal env fs external p opts = none) ∧
    (CloneExternal env fs [] p opts = some emptyExternalResult) ∧
    (∀ g : Bool, CloneExternal { env with gitOnPath := g } fs [] p opts =
      some emptyExternalResult) := by
  refine ⟨?_, ?_, ?_⟩
  · intro hne hg
    have hemp : external.isEmpty = false := by
      cases external with
      | nil => exact absurd rfl hne
      | cons a l => rfl
    simp [CloneExternal, hemp, hg]
  · simp [CloneExternal]
  · intro g
    simp [CloneExternal]

/-- C10 witness: evaluated with `git` absent on a singleton list and on the
empty list. -/
theorem clone_external_git_gate_witness :
    CloneExternal sampleGitEnvNoGit sampleFS [sampleDep] samplePlatform ⟨false, false⟩ =
      none ∧
    CloneExternal sampleGitEnvNoGit sampleFS [] samplePlatform ⟨false, false⟩ =
      some emptyExternalResult := by
  constructor
  · exact (clone_external_git_gate sampleGitEnvNoGit sampleFS [sampleDep] samplePlatform
      ⟨false, false⟩).1 (by simp) rfl
  · exact (clone_external_git_gate sampleGitEnvNoGit sampleFS [] samplePlatform
      ⟨false, false⟩).2.1

/-- C2: with `Update=false`, an asset whose condition holds and whose
expanded destination already exists is recorded as skipped with reason
"already exists" (leaving the filesystem untouched, i.e. no clone is
performed for it), is never in `Failed`, and is never in `Cloned`. -/
theorem clone_external_idempotent (env : GitEnv) (fs : FS) (external : List ExternalDep)
    (p : Platform) (opts : ExternalOptions) (ext : ExternalDep) (destPath : String)
    (hu : opts.update = false)
    (hmem : ext ∈ external)
    (hc : checkCondition ext.condition p = true)
    (he : expandPath env ext.destination = some destPath)
    (hex : fs.pathExists destPath = true)
    (hg : env.gitOnPath = true) :
    (∀ (r : ExternalResult) (fs' : FS), fs'.pathExists destPath = true →
      processExternal env p opts (r, fs') ext =
        ({ r with skipped := r.skipped ++ [⟨ext, "already exists"⟩] }, fs')) ∧
    ∃ res, CloneExternal env fs external p opts = some res ∧
      ExternalSkipped.mk ext "already exists" ∈ res.skipped ∧
      (∀ e ∈ res.failed, e.dep ≠ ext) ∧
      ext ∉ res.cloned := by
  constructor
  · intro r fs' hex'
    exact processExternal_already_exists env p opts r fs' ext destPath hu hc he hex'
  · have key := foldl_establish (processExternal env p opts) ext
      (fun s => s.2.pathExists destPath = true ∧
        (∀ e ∈ s.1.failed, e.dep ≠ ext) ∧ ext ∉ s.1.cloned)
      (fun s => (s.2.pathExists destPath = true ∧
        (∀ e ∈ s.1.failed, e.dep ≠ ext) ∧ ext ∉ s.1.cloned) ∧
        ExternalSkipped.mk ext "already exists" ∈ s.1.skipped)
      ?_ ?_ ?_ external (emptyExternalResult, fs)
      hmem ⟨hex, by simp [emptyExternalResult], by simp [emptyExternalResult]⟩
    · refine ⟨(external.foldl (processExternal env p opts) (emptyExternalResult, fs)).1,
        ?_, key.2, key.1.2.1, key.1.2.2⟩
      have hne : external.isEmpty = false := by
        cases external with
        | nil => exact absurd hmem (List.not_mem_nil ext)
        | cons a l => rfl
      simp [CloneExternal, hne, hg]
    · intro s c hInv
      by_cases hcx : c = ext
      · subst hcx
        obtain ⟨r, fs'⟩ := s
        rw [processExternal_already_exists env p opts r fs' c destPath hu hc he hInv.1]
        exact ⟨hInv.1, hInv.2.1, hInv.2.2⟩
      · refine ⟨processExternal_fs_mono env p opts s c destPath hInv.1, ?_, ?_⟩
        · intro e he'
          rcases processExternal_failed_from env p opts s c e he' with hin | hdep
          · exact hInv.2.1 e hin
          · rw [hdep]
            intro hcontra
            exact hcx hcontra
        · intro hmem'
          rcases processExternal_cloned_from env p opts s c ext hmem' with hin | heq
          · exact hInv.2.2 hin
          · exact hcx heq.symm
    · intro s c hP
      refine ⟨?_, processExternal_skipped_mono env p opts s c _ hP.2⟩
      by_cases hcx : c = ext
      · subst hcx
        obtain ⟨r, fs'⟩ := s
        rw [processExternal_already_exists env p opts r fs' c destPath hu hc he hP.1.1]
        exact ⟨hP.1.1, hP.1.2.1, hP.1.2.2⟩
      · refine ⟨processExternal_fs_mono env p opts s c destPath hP.1.1, ?_, ?_⟩
        · intro e he'
          rcases processExternal_failed_from env p opts s c e he' with hin | hdep
          · exact hP.1.2.1 e hin
          · rw [hdep]
            intro hcontra
            exact hcx hcontra
        · intro hmem'
          rcases processExternal_cloned_from env p opts s c ext hmem' with hin | heq
          · exact hP.1.2.2 hin
          · exact hcx heq.symm
    · intro s hInv
      obtain ⟨r, fs'⟩ := s
      rw [processExternal_already_exists env p opts r fs' ext destPath hu hc he hInv.1]
      exact ⟨⟨hInv.1, hInv.2.1, hInv.2.2⟩, by simp⟩

/-- C2 witness: re-running on the already-present TPM asset is a no-op —
the asset is skipped as "already exists", with empty `Failed` and `Cloned`
lists. -/
theorem clone_external_idempotent_witness :
    ∃ res, CloneExternal sampleGitEnv sampleFS [sampleDep] samplePlatform ⟨false, false⟩ =
        some res ∧
      ExternalSkipped.mk sampleDep "already exists" ∈ res.skipped ∧
      (∀ e ∈ res.failed, e.dep ≠ sampleDep) ∧
      sampleDep ∉ res.cloned :=
  (clone_external_idempotent sampleGitEnv sampleFS [sampleDep] samplePlatform ⟨false, false⟩
    sampleDep "/home/u/.tmux/plugins/tpm" rfl (by simp) (by decide) (by decide) (by decide)
    rfl).2

/-- C9 counterexample — with duplicate item names in the input the lists are
not disjoint: `[{git, missing}, {git, git}]` records the name `git` both as
skipped (first item, missing source directory) and as success (second
item). -/
theorem outcome_lists_disjoint_counterexample :
    (StowConfigs sampleStowEnv "/dots" [⟨"git", "missing"⟩, ⟨"git", "git"⟩]).1 =
      ⟨["git"], [], ["git"]⟩ ∧
    "git" ∈ (StowConfigs sampleStowEnv "/dots" [⟨"git", "missing"⟩, ⟨"git", "git"⟩]).1.skipped ∧
    "git" ∈ (StowConfigs sampleStowEnv "/dots" [⟨"git", "missing"⟩, ⟨"git", "git"⟩]).1.success :=
  ⟨rfl, by decide, by decide⟩

/-- C9 (amended): per processed item the batch operations append to exactly
one outcome list, so when the input items are pairwise distinct (by name for
the stow batches, as whole records for `CloneExternal`) an item recorded as
skipped is in neither the success/cloned list nor the failed list of the
same result; duplicate input items can defeat this. -/
theorem outcome_lists_disjoint (envS : StowEnv) (d : String) (configs : List ConfigItem)
    (envG : GitEnv) (fs : FS) (external : List ExternalDep) (p : Platform)
    (optsE : ExternalOptions) :
    ((configs.map ConfigItem.name).Nodup →
      ∀ n ∈ (StowConfigs envS d configs).1.skipped,
        n ∉ (StowConfigs envS d configs).1.success ∧
          ∀ e ∈ (StowConfigs envS d configs).1.failed, e.configName ≠ n) ∧
    ((configs.map ConfigItem.name).Nodup →
      ∀ n ∈ (UnstowConfigs envS d configs).1.skipped,
        n ∉ (UnstowConfigs envS d configs).1.success ∧
          ∀ e ∈ (UnstowConfigs envS d configs).1.failed, e.configName ≠ n) ∧
    ((configs.map ConfigItem.name).Nodup →
      ∀ n ∈ (RestowConfigs envS d configs).1.skipped,
        n ∉ (RestowConfigs envS d configs).1.success ∧
          ∀ e ∈ (RestowConfigs envS d configs).1.failed, e.configName ≠ n) ∧
    (external.Nodup →
      ∀ res, CloneExternal envG fs external p optsE = some res →
        ∀ s ∈ res.skipped, s.dep ∉ res.cloned ∧ ∀ e ∈ res.failed, e.dep ≠ s.dep) := by
  refine ⟨?_, ?_, ?_, ?_⟩
  · intro nd n hn
    refine stow_disjoint_of_count _ n ?_ hn
    rw [stowConfigs_fold_count]
    exact List.nodup_iff_count_le_one.mp nd n
  · intro nd n hn
    refine stow_disjoint_of_count _ n ?_ hn
    rw [unstowConfigs_fold_count]
    exact List.nodup_iff_count_le_one.mp nd n
  · intro nd n hn
    refine stow_disjoint_of_count _ n ?_ hn
    rw [restowConfigs_fold_count]
    exact List.nodup_iff_count_le_one.mp nd n
  · intro nd res hres s hs
    unfold CloneExternal at hres
    by_cases hemp : external.isEmpty
    · simp only [hemp, if_true, Option.some.injEq] at hres
      subst hres
      simp [emptyExternalResult] at hs
    · by_cases hg : envG.gitOnPath
      · simp only [hemp, hg, Bool.not_true, if_false, Bool.false_eq_true,
          Option.some.injEq] at hres
        have hcount := cloneExternal_fold_count envG p optsE fs external s.dep
        rw [hres] at hcount
        have hle : external.count s.dep ≤ 1 := List.nodup_iff_count_le_one.mp nd s.dep
        exact ext_disjoint_of_count res s (by omega) hs
      · simp [hemp, hg] at hres

/-- C9 witness: the amended disjointness evaluated on a distinct-name stow
batch and a singleton external list. -/
theorem outcome_lists_disjoint_witness :
    "nvim" ∉ (StowConfigs sampleStowEnv "/dots" [⟨"git", "git"⟩, ⟨"nvim", "nvim"⟩]).1.success ∧
    sampleDep ∉ (ExternalResult.mk [] [] [] [⟨sampleDep, "already exists"⟩]).cloned := by
  have h := outcome_lists_disjoint sampleStowEnv "/dots" [⟨"git", "git"⟩, ⟨"nvim", "nvim"⟩]
    sampleGitEnv sampleFS [sampleDep] samplePlatform ⟨false, false⟩
  constructor
  · exact (h.1 (by decide) "nvim" (by decide)).1
  · exact (h.2.2.2 (by simp) ⟨[], [], [], [⟨sampleDep, "already exists"⟩]⟩ rfl
      ⟨sampleDep, "already exists"⟩ (by decide)).1

/-- C5 witness: evaluating the amended theorem on a two-item batch where the
`nvim` source directory is missing. -/
theorem stow_missing_source_skipped_witness :
    sampleStowEnv.dirExists (joinPath "/dots" "nvim") = false ∧
    "nvim" ∈ (StowConfigs sampleStowEnv "/dots" [⟨"git", "git"⟩, ⟨"nvim", "nvim"⟩]).1.skipped ∧
    "nvim" ∈ (RestowConfigs sampleStowEnv "/dots" [⟨"git", "git"⟩, ⟨"nvim", "nvim"⟩]).1.skipped := by
  have h := stow_missing_source_skipped sampleStowEnv "/dots"
    [⟨"git", "git"⟩, ⟨"nvim", "nvim"⟩] ⟨"nvim", "nvim"⟩ (by simp) (by decide)
  exact ⟨by decide, h.1.1, h.1.2⟩

/-! ## Lemmas about the install orchestrator -/

theorem runPhase_platform (skip : Bool) (ph : InstallPhase)
    (step : InstallResult → InstallResult × Option String)
    (st : InstallResult × List InstallPhase)
    (h : ∀ r, ((step r).1).platform = r.platform) :
    (runPhase skip ph step st).1.platform = st.1.platform := by
  unfold runPhase
  by_cases hsk : skip
  · simp [hsk]
  · cases hout : (step st.1).2 <;> simp [hsk, hout, h st.1]

theorem runPhase_errors_mono (skip : Bool) (ph : InstallPhase)
    (step : InstallResult → InstallResult × Option String)
    (st : InstallResult × List InstallPhase)
    (h : ∀ r, ∃ tail, ((step r).1).errors = r.errors ++ tail) :
    ∃ tail, (runPhase skip ph step st).1.errors = st.1.errors ++ tail := by
  unfold runPhase
  by_cases hsk : skip
  · exact ⟨[], by simp [hsk]⟩
  · obtain ⟨tail, htail⟩ := h st.1
    cases hout : (step st.1).2 with
    | none => exact ⟨tail, by simp [hsk, hout, htail]⟩
    | some msg => exact ⟨tail ++ [msg], by simp [hsk, hout, htail]⟩

theorem runPhase_trace (skip : Bool) (ph : InstallPhase)
    (step : InstallResult → InstallResult × Option String)
    (st : InstallResult × List InstallPhase) :
    (runPhase skip ph step st).2 = st.2 ++ (if skip then [] else [ph]) := by
  unfold runPhase
  by_cases hsk : skip
  · simp [hsk]
  · cases hout : (step st.1).2 <;> simp [hsk, hout]

theorem runPhase_error_mem (ph : InstallPhase)
    (step : InstallResult → InstallResult × Option String)
    (st : InstallResult × List InstallPhase) (msg : String)
    (hout : (step st.1).2 = some msg) :
    msg ∈ (runPhase false ph step st).1.errors := by
  unfold runPhase
  simp [hout]

/-- C1: `Install` aborts (no result) exactly when platform detection fails;
otherwise it returns a result carrying the detected platform, attempts
exactly the non-skipped phases in order regardless of phase failures, and
appends the error returned by each attempted phase to the aggregate
`Errors` list of the final result. -/
theorem install_failure_aggregation (env : SetupEnv) (opts : InstallOptions)
    (hd : stepPreserves env.depsStep) (hs : stepPreserves env.stowStep)
    (he : stepPreserves env.externalStep) (hm : stepPreserves env.machineStep) :
    (Install env opts = none ↔ env.detect = none) ∧
    (∀ p : Platform, env.detect = some p →
      ∃ res tr, Install env opts = some (res, tr) ∧
        res.platform = some p ∧
        tr = (if opts.skipDeps then [] else [InstallPhase.deps]) ++
             (if opts.skipStow then [] else [InstallPhase.stow]) ++
             (if opts.skipExternal then [] else [InstallPhase.external]) ++
             (if opts.skipMachine then [] else [InstallPhase.machine]) ∧
        (∀ msg, opts.skipDeps = false →
          (env.depsStep (installInit p).1).2 = some msg → msg ∈ res.errors) ∧
        (∀ msg, opts.skipStow = false →
          (env.stowStep (installAfterDeps env opts p).1).2 = some msg → msg ∈ res.errors) ∧
        (∀ msg, opts.skipExternal = false →
          (env.externalStep (installAfterStow env opts p).1).2 = some msg →
            msg ∈ res.errors) ∧
        (∀ msg, opts.skipMachine = false →
          (env.machineStep (installAfterExternal env opts p).1).2 = some msg →
            msg ∈ res.errors)) := by
  constructor
  · unfold Install
    cases hdet : env.detect <;> simp [hdet]
  · intro p hdet
    have e1 : (installAfterDeps env opts p).1.platform = some p := by
      unfold installAfterDeps
      rw [runPhase_platform _ _ _ _ hd.2]
      simp [installInit]
    have e2 : (installAfterStow env opts p).1.platform = some p := by
      unfold installAfterStow
      rw [runPhase_platform _ _ _ _ hs.2]
      exact e1
    have e3 : (installAfterExternal env opts p).1.platform = some p := by
      unfold installAfterExternal
      rw [runPhase_platform _ _ _ _ he.2]
      exact e2
    have e4 : (installAfterMachine env opts p).1.platform = some p := by
      unfold installAfterMachine
      rw [runPhase_platform _ _ _ _ hm.2]
      exact e3
    have t1 : (installAfterDeps env opts p).2 =
        (if opts.skipDeps then [] else [InstallPhase.deps]) := by
      unfold installAfterDeps
      rw [runPhase_trace]
      simp [installInit]
    have t2 : (installAfterStow env opts p).2 =
        (if opts.skipDeps then [] else [InstallPhase.deps]) ++
        (if opts.skipStow then [] else [InstallPhase.stow]) := by
      unfold installAfterStow
      rw [runPhase_trace, t1]
    have t3 : (installAfterExternal env opts p).2 =
        ((if opts.skipDeps then [] else [InstallPhase.deps]) ++
         (if opts.skipStow then [] else [InstallPhase.stow])) ++
        (if opts.skipExternal then [] else [InstallPhase.external]) := by
      unfold installAfterExternal
      rw [runPhase_trace, t2]
    have t4 : (installAfterMachine env opts p).2 =
        (((if opts.skipDeps then [] else [InstallPhase.deps]) ++
          (if opts.skipStow then [] else [InstallPhase.stow])) ++
         (if opts.skipExternal then [] else [InstallPhase.external])) ++
        (if opts.skipMachine then [] else [InstallPhase.machine]) := by
      unfold installAfterMachine
      rw [runPhase_trace, t3]
    refine ⟨(installAfterMachine env opts p).1, (installAfterMachine env opts p).2,
      ?_, e4, ?_, ?_, ?_, ?_, ?_⟩
    · unfold Install
      rw [hdet]
    · exact t4
    · intro msg hskip hmsg
      have h1 : msg ∈ (installAfterDeps env opts p).1.errors := by
        unfold installAfterDeps
        rw [hskip]
        exact runPhase_error_mem _ _ _ _ hmsg
      obtain ⟨tl2, he2⟩ := runPhase_errors_mono opts.skipStow .stow env.stowStep
        (installAfterDeps env opts p) hs.1
      have h2 : msg ∈ (installAfterStow env opts p).1.errors := by
        unfold installAfterStow
        rw [he2]
        exact List.mem_append_left _ h1
      obtain ⟨tl3, he3⟩ := runPhase_errors_mono opts.skipExternal .external env.externalStep
        (installAfterStow env opts p) he.1
      have h3 : msg ∈ (installAfterExternal env opts p).1.errors := by
        unfold installAfterExternal
        rw [he3]
        exact List.mem_append_left _ h2
      obtain ⟨tl4, he4⟩ := runPhase_errors_mono opts.skipMachine .machine env.machineStep
        (installAfterExternal env opts p) hm.1
      unfold installAfterMachine
      rw [he4]
      exact List.mem_append_left _ h3
    · intro msg hskip hmsg
      have h2 : msg ∈ (installAfterStow env opts p).1.errors := by
        unfold installAfterStow
        rw [hskip]
        exact runPhase_error_mem _ _ _ _ hmsg
      obtain ⟨tl3, he3⟩ := runPhase_errors_mono opts.skipExternal .external env.externalStep
        (installAfterStow env opts p) he.1
      have h3 : msg ∈ (installAfterExternal env opts p).1.errors := by
        unfold installAfterExternal
        rw [he3]
        exact List.mem_append_left _ h2
      obtain ⟨tl4, he4⟩ := runPhase_errors_mono opts.skipMachine .machine env.machineStep
        (installAfterExternal env opts p) hm.1
      unfold installAfterMachine
      rw [he4]
      exact List.mem_append_left _ h3
    · intro msg hskip hmsg
      have h3 : msg ∈ (installAfterExternal env opts p).1.errors := by
        unfold installAfterExternal
        rw [hskip]
        exact runPhase_error_mem _ _ _ _ hmsg
      obtain ⟨tl4, he4⟩ := runPhase_errors_mono opts.skipMachine .machine env.machineStep
        (installAfterExternal env opts p) hm.1
      unfold installAfterMachine
      rw [he4]
      exact List.mem_append_left _ h3
    · intro msg hskip hmsg
      unfold installAfterMachine
      rw [hskip]
      exact runPhase_error_mem _ _ _ _ hmsg

/-- C1 witness: a run whose dependency phase fails still yields a result
with the platform set, all four phases attempted, and the failure in the
aggregate error list. -/
theorem install_failure_aggregation_witness :
    ∃ res tr, Install sampleSetupEnv sampleInstallOptions = some (res, tr) ∧
      res.platform = some samplePlatform ∧
      tr = [InstallPhase.deps, InstallPhase.stow, InstallPhase.external,
            InstallPhase.machine] ∧
      "deps phase failed" ∈ res.errors := by
  have h := install_failure_aggregation sampleSetupEnv sampleInstallOptions
    ⟨fun r => ⟨[], by simp [sampleSetupEnv]⟩, fun r => rfl⟩
    ⟨fun r => ⟨[], by simp [sampleSetupEnv]⟩, fun r => rfl⟩
    ⟨fun r => ⟨[], by simp [sampleSetupEnv]⟩, fun r => rfl⟩
    ⟨fun r => ⟨[], by simp [sampleSetupEnv]⟩, fun r => rfl⟩
  obtain ⟨res, tr, hI, hplat, htr, hdeps, -, -, -⟩ := h.2 samplePlatform rfl
  refine ⟨res, tr, hI, hplat, ?_, ?_⟩
  · rw [htr]
    rfl
  · exact hdeps "deps phase failed" rfl rfl

/-! ## Lemmas about the update orchestrator -/

theorem update_ok_iff (env : UpdateEnv) (cfg : Config) (dotfilesPath : String)
    (st : Option State) (opts : UpdateOptions) (tr : List UpdateStep) :
    Update env cfg dotfilesPath st opts = .ok tr ↔
      env.gitDirExists = true ∧ env.pullOk = true ∧
      tr = [UpdateStep.gitPull updatePullArgs] ++
        (if updateHeadChanged env && env.configFileChanged then
          [UpdateStep.reloadConfig] else []) ++
        (if opts.skipRestow then []
         else if 0 < (updateConfigsToRestow (updateEffectiveConfig env cfg) st).length then
           [UpdateStep.restow (updateConfigsToRestow (updateEffectiveConfig env cfg) st)]
         else []) ++
        (if opts.updateExternal && 0 < (updateEffectiveConfig env cfg).external.length then
          [UpdateStep.updateExternals] else []) := by
  unfold Update
  by_cases h1 : env.gitDirExists <;> by_cases h2 : env.pullOk <;> simp [h1, h2]
  constructor
  · intro h
    exact h.symm
  · intro h
    exact h.symm

/-- C3 counterexample — on a concrete successful update run, the only git
invocation against the dotfiles repository is `git pull --rebase`; no
fast-forward-only pull (`git pull --ff-only`) occurs, contrary to the
claim. -/
theorem update_pull_counterexample :
    Update sampleUpdateEnv sampleConfig "/dots" none ⟨false, false⟩ =
      .ok [UpdateStep.gitPull ["pull", "--rebase"],
           UpdateStep.restow [⟨"git", "git"⟩]] ∧
    UpdateStep.gitPull ["pull", "--ff-only"] ∉
      [UpdateStep.gitPull ["pull", "--rebase"], UpdateStep.restow [⟨"git", "git"⟩]] :=
  ⟨rfl, by decide⟩

/-- C3 (amended): the update orchestrator pulls the dotfiles repository
with `git pull --rebase` (not fast-forward-only), and restows the groups
recorded in the persisted state — resolved against the (possibly reloaded)
manifest — falling back to all core groups when no state or an empty state
exists. -/
theorem update_pull_and_restow (env : UpdateEnv) (cfg : Config) (dotfilesPath : String)
    (st : Option State) (opts : UpdateOptions) (tr : List UpdateStep)
    (hok : Update env cfg dotfilesPath st opts = .ok tr) :
    UpdateStep.gitPull ["pull", "--rebase"] ∈ tr ∧
    (opts.skipRestow = false →
      ∀ items, UpdateStep.restow items ∈ tr →
        items = updateConfigsToRestow (updateEffectiveConfig env cfg) st) ∧
    (opts.skipRestow = false →
      0 < (updateConfigsToRestow (updateEffectiveConfig env cfg) st).length →
      UpdateStep.restow (updateConfigsToRestow (updateEffectiveConfig env cfg) st) ∈ tr) ∧
    (∀ cfg2 : Config, updateConfigsToRestow cfg2 none = cfg2.core) ∧
    (∀ cfg2 : Config, updateConfigsToRestow cfg2 (some ⟨[]⟩) = cfg2.core) ∧
    (∀ (cfg2 : Config) (s : State), 0 < s.configs.length →
      updateConfigsToRestow cfg2 (some s) =
        s.configs.filterMap (fun sc => cfg2.GetConfigByName sc.name)) := by
  rw [update_ok_iff] at hok
  obtain ⟨h1, h2, htr⟩ := hok
  subst htr
  refine ⟨?_, ?_, ?_, ?_, ?_, ?_⟩
  · simp [updatePullArgs]
  · intro hskip items hmem
    by_cases hhc : updateHeadChanged env && env.configFileChanged <;>
      by_cases hlen : 0 < (updateConfigsToRestow (updateEffectiveConfig env cfg) st).length <;>
        simp [hskip, hhc, hlen] at hmem <;> exact hmem
  · intro hskip hlen
    by_cases hhc : updateHeadChanged env && env.configFileChanged <;>
      by_cases hext : opts.updateExternal &&
          0 < (updateEffectiveConfig env cfg).external.length <;>
        simp [hskip, hhc, hlen, hext]
  · intro cfg2
    rfl
  · intro cfg2
    simp [updateConfigsToRestow]
  · intro cfg2 s hlen
    simp [updateConfigsToRestow, hlen]

/-- C3 witness: the amended statement evaluated on a run with no persisted
state — the pull step is present and the restow selection falls back to the
core groups. -/
theorem update_pull_and_restow_witness :
    UpdateStep.gitPull ["pull", "--rebase"] ∈
      [UpdateStep.gitPull ["pull", "--rebase"], UpdateStep.restow [⟨"git", "git"⟩]] ∧
    updateConfigsToRestow sampleConfig none = sampleConfig.core := by
  have h := update_pull_and_restow sampleUpdateEnv sampleConfig "/dots" none ⟨false, false⟩
    [UpdateStep.gitPull ["pull", "--rebase"], UpdateStep.restow [⟨"git", "git"⟩]] rfl
  exact ⟨h.1, h.2.2.2.1 sampleConfig⟩

end GopherDot
